import Mathlib

/-!
Verification of the TLS framing / state-machine core (schannel TlsStream).

The TLS provider (security package) and the byte transport are external
collaborators; here they are modelled as scripts of responses that the core
consumes in call order.  Buffers are lists of bytes (Nat) with a cursor,
mirroring the three cursored Vec buffers of the source.  A panic in the
source (out-of-bounds index, failed assert) is the `crash` outcome; an
exhausted script is the `stuck` outcome (the corresponding run of the real
program would keep interacting with the outside world).
-/

/-- SEC_E_CONTEXT_EXPIRED (0x80090317) as a signed 32-bit SECURITY_STATUS. -/
def SEC_E_CONTEXT_EXPIRED : Int := -2146893033

/-- A cursored byte buffer (std::io::Cursor of Vec of u8). -/
structure Cursor where
  buf : List Nat
  pos : Nat
deriving Repr, DecidableEq

/-- SecPkgContext_StreamSizes: the record framing parameters. -/
structure StreamSizes where
  cbHeader : Nat
  cbTrailer : Nat
  cbMaximumMessage : Nat
deriving Repr, DecidableEq

/-- The State enum of the source: Initializing, Streaming, Shutdown. -/
inductive TlsState where
  | initializing (needs_flush : Bool) (more_calls : Bool) (shutting_down : Bool)
  | streaming (sizes : StreamSizes)
  | shutdown
deriving Repr, DecidableEq

/-- The mutable fields of TlsStream (the transport and the provider handles
are modelled separately as scripts). -/
structure TlsStream where
  state : TlsState
  needs_read : Bool
  dec_in : Cursor
  enc_in : Cursor
  out_buf : Cursor
deriving Repr, DecidableEq

/-- One response of InitializeSecurityContextW inside step_initialize.
For CONTINUE_NEEDED and OK, extraLen is some l when the second input buffer
came back tagged SECBUFFER_EXTRA with cbBuffer = l; token is the output
token blob of outbufs[0] (for OK it may be absent, i.e. a null pvBuffer). -/
inductive StepResp where
  | continueNeeded (extraLen : Option Nat) (token : List Nat)
  | incomplete
  | ok (extraLen : Option Nat) (token : Option (List Nat))
  | fatal (code : Int)
deriving Repr, DecidableEq

/-- One response of DecryptMessage.  On OK the provider has rewritten, in
place, the range [dataStart, dataStart + plain.length) of enc_in with the
plaintext and tagged it SECBUFFER_DATA (bufs[1]); extraLen is some l when
bufs[3] came back tagged SECBUFFER_EXTRA with cbBuffer = l. -/
inductive DecResp where
  | ok (dataStart : Nat) (plain : List Nat) (extraLen : Option Nat)
  | incomplete
  | expired (extraLen : Option Nat)
  | renegotiate (extraLen : Option Nat)
  | fatal (code : Int)
deriving Repr, DecidableEq

/-- One response of EncryptMessage: on OK the provider rewrote the prepared
out_buf region in place (rewritten = full buffer contents afterwards, same
length) and reported the three cbBuffer counts. -/
inductive EncResp where
  | ok (rewritten : List Nat) (hcb : Nat) (dcb : Nat) (tcb : Nat)
  | fatal (code : Int)
deriving Repr, DecidableEq

/-- One response of QueryContextAttributesW(SECPKG_ATTR_STREAM_SIZES). -/
inductive SizesResp where
  | ok (s : StreamSizes)
  | fail (code : Int)
deriving Repr, DecidableEq

/-- One response of ApplyControlToken(SCHANNEL_SHUTDOWN). -/
inductive TokenResp where
  | ok
  | fail (code : Int)
deriving Repr, DecidableEq

/-- The TLS provider, as scripts of responses consumed in call order. -/
structure Provider where
  steps : List StepResp
  sizesQ : List SizesResp
  decrypts : List DecResp
  encrypts : List EncResp
  tokens : List TokenResp
deriving Repr, DecidableEq

/-- One response of a transport write: ok n accepts up to n bytes. -/
inductive WriteResp where
  | ok (n : Nat)
  | fail (e : Nat)
deriving Repr, DecidableEq

/-- One response of a transport read: ok bytes delivers those bytes
(truncated to the free space of the destination). -/
inductive ReadResp where
  | ok (bytes : List Nat)
  | fail (e : Nat)
deriving Repr, DecidableEq

/-- One response of a transport flush. -/
inductive FlushResp where
  | ok
  | fail (e : Nat)
deriving Repr, DecidableEq

/-- The byte transport: response scripts plus the sink of bytes it has
accepted so far. -/
structure Transport where
  writes : List WriteResp
  reads : List ReadResp
  flushes : List FlushResp
  sink : List Nat
deriving Repr, DecidableEq

/-- Whole-system state: the stream fields, the transport, the provider. -/
structure World where
  tls : TlsStream
  tr : Transport
  pr : Provider
deriving Repr, DecidableEq

/-- io::Error as observed by the caller: a transport error propagated
verbatim, a provider error converted by Error::into_io, or the fresh
UnexpectedEof error of the handshake driver. -/
inductive IoErr where
  | transport (code : Nat)
  | schannel (code : Int)
  | eof (msg : String)
deriving Repr, DecidableEq

/-- Outcome of running a fallible operation on the world. -/
inductive Res (α : Type) where
  | ok (v : α) (w : World)
  | err (e : IoErr) (w : World)
  | stuck
  | crash
deriving Repr, DecidableEq

/-- The world an ok or err outcome left behind. -/
def Res.world {α : Type} : Res α → Option World
  | .ok _ w => some w
  | .err _ w => some w
  | .stuck => none
  | .crash => none

/-- In-place overwrite of l[i .. i + repl.length) with repl (write through a
raw pointer into the buffer). -/
def writeRange (l : List Nat) (i : Nat) (repl : List Nat) : List Nat :=
  l.take i ++ repl ++ l.drop (i + repl.length)

/-- The memmove of consume_enc_in: bytes [nread, nread + count) move to
offset 0; bytes from offset count on keep their old values. -/
def shiftDown (l : List Nat) (nread count : Nat) : List Nat :=
  (l.drop nread).take count ++ l.drop count

/-- Vec::resize(n, 0) as used by the source (only ever grows). -/
def resizeTo (l : List Nat) (n : Nat) : List Nat :=
  if l.length < n then l ++ List.replicate (n - l.length) 0 else l

/-- The consumed-byte arithmetic shared by the handshake step and decrypt:
pos minus the EXTRA buffer length when one was reported, else pos.  In the
source the subtraction is on usize; a reported EXTRA length larger than pos
would overflow, so that case is undefined (none). -/
def consumedCount (pos : Nat) (extra : Option Nat) : Option Nat :=
  match extra with
  | none => some pos
  | some l => if l ≤ pos then some (pos - l) else none

/-- TlsStream::consume_enc_in.  The source first forms a reference to
element nread of the backing buffer (panics when nread is not strictly
below its length), then asserts pos >= nread, then memmoves [nread, pos)
down to offset 0 and sets the cursor to pos - nread. -/
def consume_enc_in (c : Cursor) (nread : Nat) : Option Cursor :=
  if nread < c.buf.length then
    if nread ≤ c.pos then
      some ⟨shiftDown c.buf nread (c.pos - nread), c.pos - nread⟩
    else none
  else none

/-- Exit mode of the write_out loop: normal return Ok(n), a propagated
transport error, or script exhausted with the loop still running. -/
inductive DrainRes where
  | done (n : Nat)
  | fail (e : Nat)
  | stuck
deriving Repr, DecidableEq

/-- The loop body of TlsStream::write_out, recursing over the transport
write script: while the out_buf cursor has not reached the end, write the
remaining slice; each response ok n advances the cursor by the accepted
count and appends those bytes to the sink; a response fail e exits the loop
with that error.  Returns (outcome, remaining script, out_buf, sink). -/
def drainAux (ws : List WriteResp) (ob : Cursor) (sink : List Nat) (acc : Nat) :
    DrainRes × List WriteResp × Cursor × List Nat :=
  if ob.pos = ob.buf.length then (.done acc, ws, ob, sink)
  else
    match ws with
    | [] => (.stuck, [], ob, sink)
    | .fail e :: rest => (.fail e, rest, ob, sink)
    | .ok n :: rest =>
        let k := min n (ob.buf.length - ob.pos)
        drainAux rest ⟨ob.buf, ob.pos + k⟩ (sink ++ (ob.buf.drop ob.pos).take k) (acc + k)

/-- TlsStream::write_out lifted to the world. -/
def write_out (w : World) : Res Nat :=
  match drainAux w.tr.writes w.tls.out_buf w.tr.sink 0 with
  | (.done n, ws, ob, sink) =>
      .ok n { w with tls := { w.tls with out_buf := ob },
                     tr := { w.tr with writes := ws, sink := sink } }
  | (.fail e, ws, ob, sink) =>
      .err (.transport e) { w with tls := { w.tls with out_buf := ob },
                                   tr := { w.tr with writes := ws, sink := sink } }
  | (.stuck, _, _, _) => .stuck

/-- TlsStream::read_in: grow enc_in to at least max(1024, 2 * pos), read
into the tail, advance the cursor by the bytes delivered. -/
def read_in (w : World) : Res Nat :=
  let existing := w.tls.enc_in.pos
  let min_len := max 1024 (2 * existing)
  let buf1 := resizeTo w.tls.enc_in.buf min_len
  match w.tr.reads with
  | [] => .stuck
  | .fail e :: rest =>
      .err (.transport e) { w with tls := { w.tls with enc_in := ⟨buf1, existing⟩ },
                                   tr := { w.tr with reads := rest } }
  | .ok bytes :: rest =>
      let k := min bytes.length (buf1.length - existing)
      .ok k { w with tls := { w.tls with enc_in := ⟨writeRange buf1 existing (bytes.take k), existing + k⟩ },
                     tr := { w.tr with reads := rest } }

/-- One call of self.stream.flush(). -/
def flushTransport (w : World) : Res Unit :=
  match w.tr.flushes with
  | [] => .stuck
  | .ok :: rest => .ok () { w with tr := { w.tr with flushes := rest } }
  | .fail e :: rest => .err (.transport e) { w with tr := { w.tr with flushes := rest } }

/-- SecurityContext::stream_sizes. -/
def queryStreamSizes (w : World) : Res StreamSizes :=
  match w.pr.sizesQ with
  | [] => .stuck
  | .ok s :: rest => .ok s { w with pr := { w.pr with sizesQ := rest } }
  | .fail c :: rest => .err (.schannel c) { w with pr := { w.pr with sizesQ := rest } }

/-- The SEC_I_CONTEXT_EXPIRED / SEC_I_RENEGOTIATE arm of TlsStream::decrypt:
enter Initializing{needs_flush: false, more_calls: true, shutting_down: sd},
then the same consume arithmetic as the OK arm. -/
def decryptReneg (w : World) (sd : Bool) (extra : Option Nat) : Res Unit :=
  match consumedCount w.tls.enc_in.pos extra with
  | none => .crash
  | some nread =>
      match consume_enc_in w.tls.enc_in nread with
      | none => .crash
      | some e2 =>
          .ok () { w with tls := { w.tls with
                     state := .initializing false true sd,
                     enc_in := e2,
                     needs_read := e2.pos == 0 } }

/-- TlsStream::decrypt.  On OK the plaintext range the provider wrote in
place is copied into a cleared dec_in (cursor 0) and the consumed prefix of
enc_in is shifted away; INCOMPLETE_MESSAGE only sets needs_read; the two
renegotiation statuses re-enter Initializing; anything else is fatal. -/
def decrypt (w : World) : Res Unit :=
  match w.pr.decrypts with
  | [] => .stuck
  | resp :: rest =>
      let w1 := { w with pr := { w.pr with decrypts := rest } }
      match resp with
      | .fatal code => .err (.schannel code) w1
      | .incomplete => .ok () { w1 with tls := { w1.tls with needs_read := true } }
      | .expired extra => decryptReneg w1 true extra
      | .renegotiate extra => decryptReneg w1 false extra
      | .ok ds plain extra =>
          let e := w.tls.enc_in
          if ds + plain.length ≤ e.buf.length then
            let buf1 := writeRange e.buf ds plain
            match consumedCount e.pos extra with
            | none => .crash
            | some nread =>
                match consume_enc_in ⟨buf1, e.pos⟩ nread with
                | none => .crash
                | some e2 =>
                    .ok () { w1 with tls := { w1.tls with
                               dec_in := ⟨(buf1.drop ds).take plain.length, 0⟩,
                               enc_in := e2,
                               needs_read := e2.pos == 0 } }
          else .crash

/-- The trailing `if let State::Initializing { ref mut more_calls, .. }`
of the OK arm of step_initialize. -/
def setMoreCallsFalse : TlsState → TlsState
  | .initializing nf _ sd => .initializing nf false sd
  | s => s

/-- The tail of the SEC_E_OK arm of step_initialize, after the consume
arithmetic and the token append: run decrypt when enc_in still holds
bytes, then clear more_calls in the state. -/
def stepInitOkFinish (w2 : World) (e2pos : Nat) : Res Unit :=
  match (if e2pos ≠ 0 then decrypt w2 else .ok () w2) with
  | .ok _ w3 =>
      .ok () { w3 with tls := { w3.tls with state := setMoreCallsFalse w3.tls.state } }
  | .err e w3 => .err e w3
  | .stuck => .stuck
  | .crash => .crash

/-- TlsStream::step_initialize: one InitializeSecurityContextW call on the
enc_in prefix, dispatching on the returned status. -/
def stepInit (w : World) : Res Unit :=
  match w.pr.steps with
  | [] => .stuck
  | resp :: rest =>
      let w1 := { w with pr := { w.pr with steps := rest } }
      match resp with
      | .fatal code => .err (.schannel code) w1
      | .incomplete => .ok () { w1 with tls := { w1.tls with needs_read := true } }
      | .continueNeeded extra token =>
          match consumedCount w.tls.enc_in.pos extra with
          | none => .crash
          | some nread =>
              match consume_enc_in w.tls.enc_in nread with
              | none => .crash
              | some e2 =>
                  .ok () { w1 with tls := { w1.tls with
                             enc_in := e2,
                             needs_read := e2.pos == 0,
                             out_buf := ⟨w.tls.out_buf.buf ++ token, w.tls.out_buf.pos⟩ } }
      | .ok extra token =>
          match consumedCount w.tls.enc_in.pos extra with
          | none => .crash
          | some nread =>
              match consume_enc_in w.tls.enc_in nread with
              | none => .crash
              | some e2 =>
                  let tls2 := { w1.tls with
                                enc_in := e2,
                                needs_read := e2.pos == 0,
                                out_buf := match token with
                                           | some tkn => ⟨w.tls.out_buf.buf ++ tkn, w.tls.out_buf.pos⟩
                                           | none => w.tls.out_buf }
                  stepInitOkFinish { w1 with tls := tls2 } e2.pos

/-- The first phase of one driver loop iteration (state Initializing with
fields nf, mc, sd): drain out_buf; if any byte was written record
needs_flush in the state; if the flag is set, flush the transport and
clear it. -/
def driverFlush (nf mc sd : Bool) (w : World) : Res Unit :=
  match write_out w with
  | .stuck => .stuck
  | .crash => .crash
  | .err e w1 => .err e w1
  | .ok n w1 =>
      let nf1 := nf || decide (0 < n)
      let w2 := if 0 < n then
                  { w1 with tls := { w1.tls with state := .initializing true mc sd } }
                else w1
      if nf1 then
        match flushTransport w2 with
        | .ok _ w3 => .ok () { w3 with tls := { w3.tls with state := .initializing false mc sd } }
        | .err e w3 => .err e w3
        | .stuck => .stuck
        | .crash => .crash
      else .ok () w2

/-- The transport-read phase of one driver loop iteration: when needs_read
is set, read from the transport; a zero-byte read is the fatal
UnexpectedEof error of the handshake. -/
def driverRead (w : World) : Res Unit :=
  if w.tls.needs_read then
    match read_in w with
    | .ok 0 w5 => .err (.eof "unexpected EOF during handshake") w5
    | .ok _ w5 => .ok () w5
    | .err e w5 => .err e w5
    | .stuck => .stuck
    | .crash => .crash
  else .ok () w

/-- The handshake driver loop TlsStream::initialize; fuel bounds the number
of loop iterations (stuck when it runs out). -/
def initLoop : Nat → World → Res (Option StreamSizes)
  | 0, _ => .stuck
  | Nat.succ fuel, w =>
      match w.tls.state with
      | .streaming sizes => .ok (some sizes) w
      | .shutdown => .ok none w
      | .initializing nf mc sd =>
          match driverFlush nf mc sd w with
          | .stuck => .stuck
          | .crash => .crash
          | .err e w4 => .err e w4
          | .ok _ w4 =>
              if mc = false then
                if sd then
                  initLoop fuel { w4 with tls := { w4.tls with state := .shutdown } }
                else
                  match queryStreamSizes w4 with
                  | .ok s w5 =>
                      initLoop fuel { w5 with tls := { w5.tls with state := .streaming s } }
                  | .err e w5 => .err e w5
                  | .stuck => .stuck
                  | .crash => .crash
              else
                match driverRead w4 with
                | .ok _ w5 =>
                    match stepInit w5 with
                    | .ok _ w6 => initLoop fuel w6
                    | .err e w6 => .err e w6
                    | .stuck => .stuck
                    | .crash => .crash
                | .err e w5 => .err e w5
                | .stuck => .stuck
                | .crash => .crash

/-- TlsStream::encrypt: assert the chunk fits in cbMaximumMessage, grow
out_buf to header + data + trailer, copy the plaintext after the header
region, call EncryptMessage in place; on OK truncate out_buf to the sum of
the reported buffer counts and rewind its cursor to 0. -/
def encryptTls (w : World) (data : List Nat) (sizes : StreamSizes) : Res Unit :=
  if data.length ≤ sizes.cbMaximumMessage then
    match w.pr.encrypts with
    | [] => .stuck
    | resp :: rest =>
        let w1 := { w with pr := { w.pr with encrypts := rest } }
        let len := sizes.cbHeader + data.length + sizes.cbTrailer
        let prepared := writeRange (resizeTo w.tls.out_buf.buf len) sizes.cbHeader data
        match resp with
        | .fatal code =>
            .err (.schannel code)
              { w1 with tls := { w1.tls with out_buf := ⟨prepared, w.tls.out_buf.pos⟩ } }
        | .ok rewritten hcb dcb tcb =>
            if rewritten.length = prepared.length then
              .ok () { w1 with tls := { w1.tls with
                         out_buf := ⟨rewritten.take (hcb + dcb + tcb), 0⟩ } }
            else .crash
  else .crash

/-- The Write::write impl of TlsStream: run the handshake driver; a driver
ending in Shutdown fails with SEC_E_CONTEXT_EXPIRED; chunk the caller's
bytes to cbMaximumMessage; encrypt only when out_buf is fully drained;
drain out_buf; report the chunk length consumed. -/
def writeTls (fuel : Nat) (w : World) (data : List Nat) : Res Nat :=
  match initLoop fuel w with
  | .stuck => .stuck
  | .crash => .crash
  | .err e w1 => .err e w1
  | .ok none w1 => .err (.schannel SEC_E_CONTEXT_EXPIRED) w1
  | .ok (some sizes) w1 =>
      let len := min data.length sizes.cbMaximumMessage
      let afterEnc : Res Unit :=
        if w1.tls.out_buf.pos = w1.tls.out_buf.buf.length then
          encryptTls w1 (data.take len) sizes
        else .ok () w1
      match afterEnc with
      | .ok _ w2 =>
          match write_out w2 with
          | .ok _ w3 => .ok len w3
          | .err e w3 => .err e w3
          | .stuck => .stuck
          | .crash => .crash
      | .err e w2 => .err e w2
      | .stuck => .stuck
      | .crash => .crash

/-- TlsStream::shutdown: in Shutdown return success at once; in
Initializing{shutting_down: true} just re-enter the driver; otherwise apply
the SCHANNEL_SHUTDOWN control token, move to
Initializing{false, true, true} with needs_read cleared, then drive. -/
def shutdownTls (fuel : Nat) (w : World) : Res Unit :=
  let drive : World → Res Unit := fun w1 =>
    match initLoop fuel w1 with
    | .ok _ w2 => .ok () w2
    | .err e w2 => .err e w2
    | .stuck => .stuck
    | .crash => .crash
  match w.tls.state with
  | .shutdown => .ok () w
  | .initializing _ _ true => drive w
  | _ =>
      match w.pr.tokens with
      | [] => .stuck
      | .fail code :: rest => .err (.schannel code) { w with pr := { w.pr with tokens := rest } }
      | .ok :: rest =>
          drive { w with
                  pr := { w.pr with tokens := rest },
                  tls := { w.tls with
                           state := TlsState.initializing false true true,
                           needs_read := false } }

/-- The Write::flush impl of TlsStream: flush the underlying transport
only. -/
def flushTls (w : World) : Res Unit :=
  flushTransport w

/-- Counterexample worlds for the shutdown idempotence analysis: a
Streaming stream whose shutdown exchange is answered by the provider with
OK plus one EXTRA byte, after which DecryptMessage reports RENEGOTIATE. -/
def shutdownCexStart : World :=
  ⟨⟨.streaming ⟨5, 5, 100⟩, false, ⟨[], 0⟩, ⟨[9, 9], 1⟩, ⟨[], 0⟩⟩,
   ⟨[], [], [], []⟩,
   ⟨[.ok (some 1) none, .ok none none], [.ok ⟨1, 2, 3⟩], [.renegotiate none], [], [.ok, .ok]⟩⟩

/-- The world left by a first, successful shutdown call on
shutdownCexStart: the state machine is back in Streaming. -/
def shutdownCexMid : World :=
  ⟨⟨.streaming ⟨1, 2, 3⟩, true, ⟨[], 0⟩, ⟨[9, 9], 0⟩, ⟨[], 0⟩⟩,
   ⟨[], [], [], []⟩,
   ⟨[.ok none none], [], [], [], [.ok]⟩⟩

/-- The world left by a second shutdown call on shutdownCexMid. -/
def shutdownCexEnd : World :=
  ⟨⟨.shutdown, true, ⟨[], 0⟩, ⟨[9, 9], 0⟩, ⟨[], 0⟩⟩,
   ⟨[], [], [], []⟩,
   ⟨[], [], [], [], []⟩⟩

/-- An empty cursor, transport and provider for concrete instantiations. -/
def emptyCursor : Cursor := ⟨[], 0⟩

/-- A transport with exhausted scripts and an empty sink. -/
def emptyTransport : Transport := ⟨[], [], [], []⟩

/-- A provider with exhausted scripts. -/
def emptyProvider : Provider := ⟨[], [], [], [], []⟩

theorem writeRange_length (l repl : List Nat) (i : Nat) (h : i + repl.length ≤ l.length) :
    (writeRange l i repl).length = l.length := by
  simp only [writeRange, List.length_append, List.length_take, List.length_drop]
  omega

theorem writeRange_middle (l repl : List Nat) (i : Nat) (h : i + repl.length ≤ l.length) :
    ((writeRange l i repl).drop i).take repl.length = repl := by
  have h2 : (l.take i).length = i := by simp; omega
  rw [writeRange, List.append_assoc, List.drop_left' h2, List.take_left]

theorem shiftDown_take (l : List Nat) (n k : Nat) (h : n + k ≤ l.length) :
    (shiftDown l n k).take k = (l.drop n).take k := by
  have h2 : ((l.drop n).take k).length = k := by simp; omega
  rw [shiftDown, List.take_left' h2]

theorem drop_take_eq (l : List Nat) (n k : Nat) :
    (l.drop n).take k = (l.take (n + k)).drop n := by
  rw [List.drop_take]
  congr 1
  omega

theorem drainAux_at_end (ws : List WriteResp) (ob : Cursor) (sink : List Nat) (acc : Nat)
    (hp : ob.pos = ob.buf.length) :
    drainAux ws ob sink acc = (.done acc, ws, ob, sink) := by
  rw [drainAux.eq_def]
  simp [hp]

theorem drainAux_nil (ob : Cursor) (sink : List Nat) (acc : Nat)
    (hp : ¬ ob.pos = ob.buf.length) :
    drainAux [] ob sink acc = (.stuck, [], ob, sink) := by
  rw [drainAux.eq_def]
  simp [hp]

theorem drainAux_ok (ob : Cursor) (sink : List Nat) (acc n : Nat) (rest : List WriteResp)
    (hp : ¬ ob.pos = ob.buf.length) :
    drainAux (.ok n :: rest) ob sink acc =
      drainAux rest ⟨ob.buf, ob.pos + min n (ob.buf.length - ob.pos)⟩
        (sink ++ (ob.buf.drop ob.pos).take (min n (ob.buf.length - ob.pos)))
        (acc + min n (ob.buf.length - ob.pos)) := by
  conv_lhs => rw [drainAux]
  simp [hp]

theorem drainAux_fail (ob : Cursor) (sink : List Nat) (acc e : Nat) (rest : List WriteResp)
    (hp : ¬ ob.pos = ob.buf.length) :
    drainAux (.fail e :: rest) ob sink acc = (.fail e, rest, ob, sink) := by
  conv_lhs => rw [drainAux]
  simp [hp]

theorem drainAux_spec (ws : List WriteResp) (ob : Cursor) (sink : List Nat) (acc : Nat) :
    (drainAux ws ob sink acc).2.2.1.buf = ob.buf ∧
    ob.pos ≤ (drainAux ws ob sink acc).2.2.1.pos ∧
    (drainAux ws ob sink acc).2.2.2 =
      sink ++ (ob.buf.drop ob.pos).take ((drainAux ws ob sink acc).2.2.1.pos - ob.pos) := by
  induction ws generalizing ob sink acc with
  | nil =>
      by_cases hp : ob.pos = ob.buf.length
      · rw [drainAux_at_end _ _ _ _ hp]
        simp
      · rw [drainAux_nil _ _ _ hp]
        simp
  | cons head rest ih =>
      by_cases hp : ob.pos = ob.buf.length
      · rw [drainAux_at_end _ _ _ _ hp]
        simp
      · match head with
        | .fail e =>
            rw [drainAux_fail _ _ _ _ _ hp]
            simp
        | .ok n =>
            rw [drainAux_ok _ _ _ _ _ hp]
            obtain ⟨ihb, ihp, ihs⟩ :=
              ih ⟨ob.buf, ob.pos + min n (ob.buf.length - ob.pos)⟩
                (sink ++ (ob.buf.drop ob.pos).take (min n (ob.buf.length - ob.pos)))
                (acc + min n (ob.buf.length - ob.pos))
            simp only at ihp
            refine ⟨ihb, by omega, ?_⟩
            rw [ihs, List.append_assoc]
            congr 1
            have hk :
                (drainAux rest ⟨ob.buf, ob.pos + min n (ob.buf.length - ob.pos)⟩
                  (sink ++ (ob.buf.drop ob.pos).take (min n (ob.buf.length - ob.pos)))
                  (acc + min n (ob.buf.length - ob.pos))).2.2.1.pos - ob.pos =
                min n (ob.buf.length - ob.pos) +
                ((drainAux rest ⟨ob.buf, ob.pos + min n (ob.buf.length - ob.pos)⟩
                  (sink ++ (ob.buf.drop ob.pos).take (min n (ob.buf.length - ob.pos)))
                  (acc + min n (ob.buf.length - ob.pos))).2.2.1.pos -
                 (ob.pos + min n (ob.buf.length - ob.pos))) := by
              omega
            rw [hk, List.take_add, List.drop_drop]

theorem drainAux_done (ws : List WriteResp) (ob : Cursor) (sink : List Nat) (acc n : Nat)
    (h : (drainAux ws ob sink acc).1 = .done n) :
    (drainAux ws ob sink acc).2.2.1.pos = ob.buf.length := by
  induction ws generalizing ob sink acc n with
  | nil =>
      by_cases hp : ob.pos = ob.buf.length
      · rw [drainAux_at_end _ _ _ _ hp]
        exact hp
      · rw [drainAux_nil _ _ _ hp] at h
        simp at h
  | cons head rest ih =>
      by_cases hp : ob.pos = ob.buf.length
      · rw [drainAux_at_end _ _ _ _ hp]
        exact hp
      · match head with
        | .fail e =>
            rw [drainAux_fail _ _ _ _ _ hp] at h
            simp at h
        | .ok m =>
            rw [drainAux_ok _ _ _ _ _ hp] at h ⊢
            exact ih _ _ _ _ h

/-- C10: consume_enc_in is total only for nread strictly below the length
of the backing buffer of enc_in: for every n with n ≤ pos < length it
moves the bytes [n, pos) down to offset 0 and sets the cursor to pos - n,
but when n equals the backing length the indexing of element n panics
(modelled as none) even though zero bytes would need to be moved. -/
theorem consume_enc_in_totality (c : Cursor) (n : Nat) :
    (n ≤ c.pos → c.pos < c.buf.length →
       consume_enc_in c n = some ⟨shiftDown c.buf n (c.pos - n), c.pos - n⟩ ∧
       (shiftDown c.buf n (c.pos - n)).take (c.pos - n) = (c.buf.take c.pos).drop n) ∧
    (n = c.buf.length → consume_enc_in c n = none) := by
  constructor
  · intro h1 h2
    have hlt : n < c.buf.length := by omega
    refine ⟨by simp [consume_enc_in, hlt, h1], ?_⟩
    rw [shiftDown_take _ _ _ (by omega), drop_take_eq]
    have hx : n + (c.pos - n) = c.pos := by omega
    rw [hx]
  · intro h
    simp [consume_enc_in, h]

/-- Witness for consume_enc_in_totality at a concrete cursor. -/
theorem consume_enc_in_totality_witness :
    consume_enc_in ⟨[1, 2, 3], 2⟩ 1 =
      some ⟨shiftDown [1, 2, 3] 1 (2 - 1), 2 - 1⟩ ∧
    (shiftDown [1, 2, 3] 1 (2 - 1)).take (2 - 1) = (([1, 2, 3].take 2).drop 1) :=
  (consume_enc_in_totality ⟨[1, 2, 3], 2⟩ 1).1 (by decide) (by decide)

/-- C9: flush only flushes the underlying transport: the stream fields
(out_buf, enc_in, dec_in, the state machine, needs_read), the provider
scripts, and the bytes accepted by the transport are all unchanged; in
particular no byte of out_buf is written out. -/
theorem flush_touches_transport_only (w w' : World)
    (h : (flushTls w).world = some w') :
    w'.tls = w.tls ∧ w'.tr.sink = w.tr.sink ∧ w'.pr = w.pr := by
  unfold flushTls flushTransport at h
  rcases hf : w.tr.flushes with _ | ⟨r, rest⟩
  · rw [hf] at h
    simp [Res.world] at h
  · rw [hf] at h
    cases r <;> simp [Res.world] at h <;> subst h <;> simp

/-- Witness for flush_touches_transport_only at a concrete stream. -/
theorem flush_touches_transport_only_witness :
    (⟨⟨.shutdown, false, emptyCursor, emptyCursor, ⟨[4, 5], 0⟩⟩,
      { emptyTransport with flushes := [], sink := [1] },
      emptyProvider⟩ : World).tls =
      (⟨⟨.shutdown, false, emptyCursor, emptyCursor, ⟨[4, 5], 0⟩⟩,
        { emptyTransport with flushes := [.ok], sink := [1] },
        emptyProvider⟩ : World).tls ∧
    (⟨⟨.shutdown, false, emptyCursor, emptyCursor, ⟨[4, 5], 0⟩⟩,
      { emptyTransport with flushes := [], sink := [1] },
      emptyProvider⟩ : World).tr.sink =
      (⟨⟨.shutdown, false, emptyCursor, emptyCursor, ⟨[4, 5], 0⟩⟩,
        { emptyTransport with flushes := [.ok], sink := [1] },
        emptyProvider⟩ : World).tr.sink ∧
    (⟨⟨.shutdown, false, emptyCursor, emptyCursor, ⟨[4, 5], 0⟩⟩,
      { emptyTransport with flushes := [], sink := [1] },
      emptyProvider⟩ : World).pr =
      (⟨⟨.shutdown, false, emptyCursor, emptyCursor, ⟨[4, 5], 0⟩⟩,
        { emptyTransport with flushes := [.ok], sink := [1] },
        emptyProvider⟩ : World).pr :=
  flush_touches_transport_only
    ⟨⟨.shutdown, false, emptyCursor, emptyCursor, ⟨[4, 5], 0⟩⟩,
     { emptyTransport with flushes := [.ok], sink := [1] },
     emptyProvider⟩
    ⟨⟨.shutdown, false, emptyCursor, emptyCursor, ⟨[4, 5], 0⟩⟩,
     { emptyTransport with flushes := [], sink := [1] },
     emptyProvider⟩
    (by decide)

theorem consumedCount_le (pos : Nat) (extra : Option Nat) (nread : Nat)
    (h : consumedCount pos extra = some nread) : nread ≤ pos := by
  rcases extra with _ | l
  · simp [consumedCount] at h
    omega
  · simp [consumedCount] at h
    rcases h with ⟨h1, h2⟩
    omega

/-- C5: on CONTINUE_NEEDED the handshake step consumes enc_in.pos minus
the EXTRA length when the second input buffer was tagged EXTRA (else all
of enc_in.pos), shifts enc_in down by that count, sets needs_read exactly
when enc_in became empty, and appends the output token to out_buf. -/
theorem stepInit_continue_needed_spec (w : World) (rest : List StepResp)
    (extra : Option Nat) (token : List Nat) (nread : Nat)
    (hs : w.pr.steps = .continueNeeded extra token :: rest)
    (hc : consumedCount w.tls.enc_in.pos extra = some nread)
    (hlt : nread < w.tls.enc_in.buf.length) :
    stepInit w = .ok ()
      { w with
        pr := { w.pr with steps := rest },
        tls := { w.tls with
                 enc_in := ⟨shiftDown w.tls.enc_in.buf nread (w.tls.enc_in.pos - nread),
                            w.tls.enc_in.pos - nread⟩,
                 needs_read := w.tls.enc_in.pos - nread == 0,
                 out_buf := ⟨w.tls.out_buf.buf ++ token, w.tls.out_buf.pos⟩ } } ∧
    (extra = none → nread = w.tls.enc_in.pos) ∧
    (∀ l, extra = some l → nread = w.tls.enc_in.pos - l) := by
  have hle : nread ≤ w.tls.enc_in.pos := consumedCount_le _ _ _ hc
  refine ⟨?_, ?_, ?_⟩
  · unfold stepInit
    rw [hs]
    simp only [hc, consume_enc_in, if_pos hlt, if_pos hle]
  · intro he
    rw [he] at hc
    simp [consumedCount] at hc
    omega
  · intro l he
    rw [he] at hc
    simp [consumedCount] at hc
    omega

/-- Witness for stepInit_continue_needed_spec at a concrete stream. -/
theorem stepInit_continue_needed_spec_witness :
    stepInit
      ⟨⟨.initializing false true false, false, emptyCursor, ⟨[8, 9], 2⟩, ⟨[3], 1⟩⟩,
       emptyTransport,
       { emptyProvider with steps := [.continueNeeded (some 1) [7]] }⟩ = .ok ()
      { (⟨⟨.initializing false true false, false, emptyCursor, ⟨[8, 9], 2⟩, ⟨[3], 1⟩⟩,
         emptyTransport,
         { emptyProvider with steps := [.continueNeeded (some 1) [7]] }⟩ : World) with
        pr := { ({ emptyProvider with steps := [.continueNeeded (some 1) [7]] } : Provider) with
                steps := [] },
        tls := { (⟨.initializing false true false, false, emptyCursor, ⟨[8, 9], 2⟩, ⟨[3], 1⟩⟩ : TlsStream) with
                 enc_in := ⟨shiftDown [8, 9] 1 (2 - 1), 2 - 1⟩,
                 needs_read := 2 - 1 == 0,
                 out_buf := ⟨[3] ++ [7], 1⟩ } } ∧
    ((some 1 : Option Nat) = none → 1 = 2) ∧
    (∀ l, (some 1 : Option Nat) = some l → 1 = 2 - l) :=
  stepInit_continue_needed_spec
    ⟨⟨.initializing false true false, false, emptyCursor, ⟨[8, 9], 2⟩, ⟨[3], 1⟩⟩,
     emptyTransport,
     { emptyProvider with steps := [.continueNeeded (some 1) [7]] }⟩
    [] (some 1) [7] 1 (by decide) (by decide) (by decide)

/-- C7: on a decrypt that returns OK, dec_in is cleared and then holds
exactly the sub-range of enc_in the provider tagged as data, cursor 0;
enc_in is shifted down by pos minus the EXTRA length (or by all of pos
when no EXTRA buffer came back); needs_read is set exactly when enc_in
became empty. -/
theorem decrypt_ok_spec (w : World) (rest : List DecResp) (ds : Nat) (plain : List Nat)
    (extra : Option Nat) (nread : Nat)
    (hs : w.pr.decrypts = .ok ds plain extra :: rest)
    (hb : ds + plain.length ≤ w.tls.enc_in.buf.length)
    (hc : consumedCount w.tls.enc_in.pos extra = some nread)
    (hlt : nread < w.tls.enc_in.buf.length) :
    decrypt w = .ok ()
      { w with
        pr := { w.pr with decrypts := rest },
        tls := { w.tls with
                 dec_in := ⟨plain, 0⟩,
                 enc_in := ⟨shiftDown (writeRange w.tls.enc_in.buf ds plain) nread
                              (w.tls.enc_in.pos - nread),
                            w.tls.enc_in.pos - nread⟩,
                 needs_read := w.tls.enc_in.pos - nread == 0 } } ∧
    (extra = none → nread = w.tls.enc_in.pos) ∧
    (∀ l, extra = some l → nread = w.tls.enc_in.pos - l) := by
  have hle : nread ≤ w.tls.enc_in.pos := consumedCount_le _ _ _ hc
  have hlen : (writeRange w.tls.enc_in.buf ds plain).length = w.tls.enc_in.buf.length :=
    writeRange_length _ _ _ hb
  refine ⟨?_, ?_, ?_⟩
  · unfold decrypt
    rw [hs]
    simp only [if_pos hb, hc, consume_enc_in, hlen, if_pos hlt, if_pos hle,
               writeRange_middle _ _ _ hb]
  · intro he
    rw [he] at hc
    simp [consumedCount] at hc
    omega
  · intro l he
    rw [he] at hc
    simp [consumedCount] at hc
    omega

/-- Witness for decrypt_ok_spec at a concrete stream. -/
theorem decrypt_ok_spec_witness :
    decrypt
      ⟨⟨.streaming ⟨1, 1, 4⟩, false, ⟨[9], 0⟩, ⟨[1, 2, 3, 4], 3⟩, emptyCursor⟩,
       emptyTransport,
       { emptyProvider with decrypts := [.ok 1 [7] (some 1)] }⟩ = .ok ()
      { (⟨⟨.streaming ⟨1, 1, 4⟩, false, ⟨[9], 0⟩, ⟨[1, 2, 3, 4], 3⟩, emptyCursor⟩,
         emptyTransport,
         { emptyProvider with decrypts := [.ok 1 [7] (some 1)] }⟩ : World) with
        pr := { ({ emptyProvider with decrypts := [.ok 1 [7] (some 1)] } : Provider) with
                decrypts := [] },
        tls := { (⟨.streaming ⟨1, 1, 4⟩, false, ⟨[9], 0⟩, ⟨[1, 2, 3, 4], 3⟩, emptyCursor⟩ : TlsStream) with
                 dec_in := ⟨[7], 0⟩,
                 enc_in := ⟨shiftDown (writeRange [1, 2, 3, 4] 1 [7]) 2 (3 - 2), 3 - 2⟩,
                 needs_read := 3 - 2 == 0 } } ∧
    ((some 1 : Option Nat) = none → 2 = 3) ∧
    (∀ l, (some 1 : Option Nat) = some l → 2 = 3 - l) :=
  decrypt_ok_spec
    ⟨⟨.streaming ⟨1, 1, 4⟩, false, ⟨[9], 0⟩, ⟨[1, 2, 3, 4], 3⟩, emptyCursor⟩,
     emptyTransport,
     { emptyProvider with decrypts := [.ok 1 [7] (some 1)] }⟩
    [] 1 [7] (some 1) 2 (by decide) (by decide) (by decide) (by decide)

/-- C8: on a decrypt that returns CONTEXT_EXPIRED or RENEGOTIATE the state
becomes Initializing with more_calls true and shutting_down exactly when
the status was CONTEXT_EXPIRED; the same consume arithmetic as the OK path
runs, so the bytes tagged EXTRA remain at the front of enc_in (its valid
region after the shift is exactly the old bytes [nread, pos)); dec_in is
untouched, so no decrypted data is lost across the boundary. -/
theorem decrypt_reneg_spec (w : World) (rest : List DecResp) (extra : Option Nat)
    (nread : Nat) (b : Bool)
    (hs : w.pr.decrypts = (if b then DecResp.expired extra else DecResp.renegotiate extra) :: rest)
    (hc : consumedCount w.tls.enc_in.pos extra = some nread)
    (hlt : nread < w.tls.enc_in.buf.length)
    (hpos : w.tls.enc_in.pos ≤ w.tls.enc_in.buf.length) :
    decrypt w = .ok ()
      { w with
        pr := { w.pr with decrypts := rest },
        tls := { w.tls with
                 state := .initializing false true b,
                 enc_in := ⟨shiftDown w.tls.enc_in.buf nread (w.tls.enc_in.pos - nread),
                            w.tls.enc_in.pos - nread⟩,
                 needs_read := w.tls.enc_in.pos - nread == 0 } } ∧
    (shiftDown w.tls.enc_in.buf nread (w.tls.enc_in.pos - nread)).take
        (w.tls.enc_in.pos - nread) =
      (w.tls.enc_in.buf.take w.tls.enc_in.pos).drop nread ∧
    (∀ l, extra = some l → w.tls.enc_in.pos - nread = l) := by
  have hle : nread ≤ w.tls.enc_in.pos := consumedCount_le _ _ _ hc
  refine ⟨?_, ?_, ?_⟩
  · unfold decrypt decryptReneg
    rw [hs]
    cases b <;> simp [hc, consume_enc_in, hlt, hle]
  · rw [shiftDown_take _ _ _ (by omega), drop_take_eq]
    have hx : nread + (w.tls.enc_in.pos - nread) = w.tls.enc_in.pos := by omega
    rw [hx]
  · intro l he
    rw [he] at hc
    simp [consumedCount] at hc
    omega

/-- Witness for decrypt_reneg_spec at a concrete stream. -/
theorem decrypt_reneg_spec_witness :
    decrypt
      ⟨⟨.streaming ⟨1, 1, 4⟩, false, ⟨[9], 0⟩, ⟨[1, 2, 3], 2⟩, emptyCursor⟩,
       emptyTransport,
       { emptyProvider with decrypts := [.expired (some 1)] }⟩ = .ok ()
      { (⟨⟨.streaming ⟨1, 1, 4⟩, false, ⟨[9], 0⟩, ⟨[1, 2, 3], 2⟩, emptyCursor⟩,
         emptyTransport,
         { emptyProvider with decrypts := [.expired (some 1)] }⟩ : World) with
        pr := { ({ emptyProvider with decrypts := [.expired (some 1)] } : Provider) with
                decrypts := [] },
        tls := { (⟨.streaming ⟨1, 1, 4⟩, false, ⟨[9], 0⟩, ⟨[1, 2, 3], 2⟩, emptyCursor⟩ : TlsStream) with
                 state := .initializing false true true,
                 enc_in := ⟨shiftDown [1, 2, 3] 1 (2 - 1), 2 - 1⟩,
                 needs_read := 2 - 1 == 0 } } ∧
    (shiftDown [1, 2, 3] 1 (2 - 1)).take (2 - 1) = (([1, 2, 3].take 2).drop 1) ∧
    (∀ l, (some 1 : Option Nat) = some l → 2 - 1 = l) :=
  decrypt_reneg_spec
    ⟨⟨.streaming ⟨1, 1, 4⟩, false, ⟨[9], 0⟩, ⟨[1, 2, 3], 2⟩, emptyCursor⟩,
     emptyTransport,
     { emptyProvider with decrypts := [.expired (some 1)] }⟩
    [] (some 1) 1 true (by decide) (by decide) (by decide) (by decide)

/-- C1 counterexample: with one unsent byte in out_buf and a transport
answering every write with zero bytes, the drain loop of write_out neither
terminates normally nor with an error after consuming three zero-byte
responses; nothing advanced, no transport error was produced: the loop
just retries the write. -/
theorem write_out_zero_write_counterexample :
    drainAux [.ok 0, .ok 0, .ok 0] ⟨[7], 0⟩ [] 0 = (.stuck, [], ⟨[7], 0⟩, []) ∧
    write_out
      ⟨⟨.streaming ⟨1, 1, 4⟩, false, emptyCursor, emptyCursor, ⟨[7], 0⟩⟩,
       { emptyTransport with writes := [.ok 0, .ok 0, .ok 0] },
       emptyProvider⟩ = .stuck := by
  decide

/-- C1 (amended): while draining out_buf, each successful transport write
advances the cursor by the accepted count and appends exactly those bytes
to the transport (a short write is not an error, the loop continues); a
transport error return exits the loop and is propagated; the loop returns
Ok only once the cursor reached the end of out_buf; but a zero-byte write
is NOT surfaced as an error: after any number of consecutive zero-byte
writes the loop is still retrying with nothing advanced. -/
theorem write_out_drain_behavior :
    (∀ (ob : Cursor) (n : Nat) (rest : List WriteResp) (sink : List Nat) (acc : Nat),
       ob.pos ≠ ob.buf.length →
       drainAux (.ok n :: rest) ob sink acc =
         drainAux rest ⟨ob.buf, ob.pos + min n (ob.buf.length - ob.pos)⟩
           (sink ++ (ob.buf.drop ob.pos).take (min n (ob.buf.length - ob.pos)))
           (acc + min n (ob.buf.length - ob.pos))) ∧
    (∀ (ob : Cursor) (e : Nat) (rest : List WriteResp) (sink : List Nat) (acc : Nat),
       ob.pos ≠ ob.buf.length →
       drainAux (.fail e :: rest) ob sink acc = (.fail e, rest, ob, sink)) ∧
    (∀ (ws : List WriteResp) (ob : Cursor) (sink : List Nat) (acc n : Nat),
       (drainAux ws ob sink acc).1 = .done n →
       (drainAux ws ob sink acc).2.2.1.pos = ob.buf.length) ∧
    (∀ (k : Nat) (ob : Cursor) (sink : List Nat) (acc : Nat), ob.pos ≠ ob.buf.length →
       drainAux (List.replicate k (.ok 0)) ob sink acc = (.stuck, [], ob, sink)) := by
  refine ⟨fun ob n rest sink acc hp => drainAux_ok ob sink acc n rest hp,
          fun ob e rest sink acc hp => drainAux_fail ob sink acc e rest hp,
          fun ws ob sink acc n h => drainAux_done ws ob sink acc n h,
          ?_⟩
  intro k
  induction k with
  | zero => intro ob sink acc hp; exact drainAux_nil ob sink acc hp
  | succ k ih =>
      intro ob sink acc hp
      rw [List.replicate_succ, drainAux_ok ob sink acc 0 _ hp]
      simpa using ih ob sink acc hp

/-- Witness for write_out_drain_behavior: a transport error exits the
drain loop and is propagated. -/
theorem write_out_drain_behavior_witness :
    drainAux [.fail 3] ⟨[7], 0⟩ [] 0 = (.fail 3, [], ⟨[7], 0⟩, []) :=
  write_out_drain_behavior.2.1 ⟨[7], 0⟩ 3 [] [] 0 (by decide)

set_option maxHeartbeats 1000000 in
/-- C4 counterexample: starting from shutdownCexStart (a Streaming stream
whose shutdown exchange the provider answers with OK plus one EXTRA byte,
after which DecryptMessage reports RENEGOTIATE), a first shutdown call
succeeds but leaves the state machine in Streaming; a second successful
call applies another control token and ends in Shutdown, so two
successive calls do not have the same observable effect as one. -/
theorem shutdown_not_idempotent_counterexample :
    shutdownTls 5 shutdownCexStart = .ok () shutdownCexMid ∧
    shutdownTls 5 shutdownCexMid = .ok () shutdownCexEnd ∧
    shutdownCexEnd ≠ shutdownCexMid :=
  ⟨rfl, rfl, by decide⟩

/-- C4 (amended): when the state is already Shutdown, shutdown returns
success immediately, applying no control token and touching no buffer or
transport byte (the whole world is unchanged); consequently, whenever a
successful shutdown call leaves the state machine in Shutdown, a second
call returns success and changes nothing. -/
theorem shutdown_idempotent_in_shutdown (fuel : Nat) (w : World) :
    (w.tls.state = .shutdown → shutdownTls fuel w = .ok () w) ∧
    (∀ w', shutdownTls fuel w = .ok () w' → w'.tls.state = .shutdown →
       shutdownTls fuel w' = .ok () w') := by
  constructor
  · intro h
    unfold shutdownTls
    rw [h]
  · intro w' h1 h2
    unfold shutdownTls
    rw [h2]

/-- Witness for shutdown_idempotent_in_shutdown at a concrete stream. -/
theorem shutdown_idempotent_in_shutdown_witness :
    shutdownTls 1
        ⟨⟨.shutdown, false, emptyCursor, emptyCursor, emptyCursor⟩,
         emptyTransport, emptyProvider⟩ =
      .ok () ⟨⟨.shutdown, false, emptyCursor, emptyCursor, emptyCursor⟩,
              emptyTransport, emptyProvider⟩ :=
  (shutdown_idempotent_in_shutdown 1
    ⟨⟨.shutdown, false, emptyCursor, emptyCursor, emptyCursor⟩,
     emptyTransport, emptyProvider⟩).1 rfl

theorem write_out_world_spec (w w' : World) (h : (write_out w).world = some w') :
    w'.pr = w.pr ∧
    w'.tls.out_buf.buf = w.tls.out_buf.buf ∧
    w.tls.out_buf.pos ≤ w'.tls.out_buf.pos ∧
    w'.tr.sink = w.tr.sink ++
      (w.tls.out_buf.buf.drop w.tls.out_buf.pos).take
        (w'.tls.out_buf.pos - w.tls.out_buf.pos) ∧
    w'.tls.state = w.tls.state ∧ w'.tls.needs_read = w.tls.needs_read ∧
    w'.tls.dec_in = w.tls.dec_in ∧ w'.tls.enc_in = w.tls.enc_in := by
  unfold write_out at h
  obtain ⟨hb, hp, hs⟩ := drainAux_spec w.tr.writes w.tls.out_buf w.tr.sink 0
  rcases hr : drainAux w.tr.writes w.tls.out_buf w.tr.sink 0 with ⟨res, ws2, ob2, sink2⟩
  rw [hr] at h hb hp hs
  simp only at hb hp hs
  cases res <;> simp only [Res.world, Option.some.injEq] at h
  · subst h
    exact ⟨rfl, hb, hp, hs, rfl, rfl, rfl, rfl⟩
  · subst h
    exact ⟨rfl, hb, hp, hs, rfl, rfl, rfl, rfl⟩
  · exact Option.noConfusion h

theorem write_out_at_end (w : World) (hp : w.tls.out_buf.pos = w.tls.out_buf.buf.length) :
    write_out w = .ok 0 w := by
  unfold write_out
  rw [drainAux_at_end _ _ _ _ hp]

theorem writeRange_nil (l : List Nat) (i : Nat) : writeRange l i [] = l := by
  simp [writeRange]

/-- C6: in the handshake driver, whenever needs_read is set and the
transport read delivers zero bytes, the driver fails with the fatal
UnexpectedEof error "unexpected EOF during handshake" rather than
returning EOF gracefully. -/
theorem initLoop_eof_during_handshake (fuel : Nat) (w : World) (sd : Bool)
    (rest : List ReadResp)
    (hst : w.tls.state = .initializing false true sd)
    (hob : w.tls.out_buf.pos = w.tls.out_buf.buf.length)
    (hnr : w.tls.needs_read = true)
    (hrd : w.tr.reads = .ok [] :: rest) :
    initLoop (fuel + 1) w =
      .err (.eof "unexpected EOF during handshake")
        { w with
          tls := { w.tls with
                   enc_in := ⟨resizeTo w.tls.enc_in.buf (max 1024 (2 * w.tls.enc_in.pos)),
                              w.tls.enc_in.pos⟩ },
          tr := { w.tr with reads := rest } } := by
  have hdf : driverFlush false true sd w = .ok () w := by
    unfold driverFlush
    rw [write_out_at_end w hob]
    simp
  have hdr : driverRead w =
      .err (.eof "unexpected EOF during handshake")
        { w with
          tls := { w.tls with
                   enc_in := ⟨resizeTo w.tls.enc_in.buf (max 1024 (2 * w.tls.enc_in.pos)),
                              w.tls.enc_in.pos⟩ },
          tr := { w.tr with reads := rest } } := by
    unfold driverRead read_in
    rw [hnr, hrd]
    simp [writeRange_nil]
  rw [initLoop, hst]
  simp [hdf, hdr]

/-- Witness for initLoop_eof_during_handshake at a concrete stream. -/
theorem initLoop_eof_during_handshake_witness :
    initLoop 1
        ⟨⟨.initializing false true false, true, emptyCursor, emptyCursor, emptyCursor⟩,
         { emptyTransport with reads := [.ok []] }, emptyProvider⟩ =
      .err (.eof "unexpected EOF during handshake")
        { (⟨⟨.initializing false true false, true, emptyCursor, emptyCursor, emptyCursor⟩,
           { emptyTransport with reads := [.ok []] }, emptyProvider⟩ : World) with
          tls := { (⟨.initializing false true false, true, emptyCursor, emptyCursor,
                     emptyCursor⟩ : TlsStream) with
                   enc_in := ⟨resizeTo [] (max 1024 (2 * 0)), 0⟩ },
          tr := { ({ emptyTransport with reads := [.ok []] } : Transport) with reads := [] } } :=
  initLoop_eof_during_handshake 0
    ⟨⟨.initializing false true false, true, emptyCursor, emptyCursor, emptyCursor⟩,
     { emptyTransport with reads := [.ok []] }, emptyProvider⟩
    false [] rfl rfl rfl rfl

/-- C2: when write is called in the Streaming state with out_buf not yet
fully drained, the encrypt path is skipped entirely: the provider scripts
(in particular the EncryptMessage responses) are untouched, the contents
of out_buf are not regenerated, and the only bytes that reach the
transport are the still-pending suffix of the previously encrypted record
(so a retry with the same bytes emits no duplicate record); moreover the
caller's bytes are never read (any buffer of equal length gives the very
same outcome). -/
theorem write_backpressure_no_reencrypt (fuel : Nat) (w : World) (data : List Nat)
    (sizes : StreamSizes) (w' : World)
    (hst : w.tls.state = .streaming sizes)
    (hne : w.tls.out_buf.pos ≠ w.tls.out_buf.buf.length)
    (hw : (writeTls (fuel + 1) w data).world = some w') :
    w'.pr = w.pr ∧
    w'.tls.out_buf.buf = w.tls.out_buf.buf ∧
    w.tls.out_buf.pos ≤ w'.tls.out_buf.pos ∧
    w'.tr.sink = w.tr.sink ++
      (w.tls.out_buf.buf.drop w.tls.out_buf.pos).take
        (w'.tls.out_buf.pos - w.tls.out_buf.pos) ∧
    (∀ data2 : List Nat, data2.length = data.length →
       writeTls (fuel + 1) w data2 = writeTls (fuel + 1) w data) := by
  have hinit : initLoop (fuel + 1) w = .ok (some sizes) w := by
    rw [initLoop, hst]
  have hred : ∀ d : List Nat, writeTls (fuel + 1) w d =
      (match write_out w with
       | .ok _ w3 => .ok (min d.length sizes.cbMaximumMessage) w3
       | .err e w3 => .err e w3
       | .stuck => .stuck
       | .crash => .crash) := by
    intro d
    unfold writeTls
    rw [hinit]
    simp only [if_neg hne]
  have hwo : (write_out w).world = some w' := by
    rw [hred data] at hw
    rcases hq : write_out w with ⟨n, w3⟩ | ⟨e, w3⟩ | _ | _ <;> rw [hq] at hw <;>
      simp [Res.world] at hw ⊢ <;> exact hw
  obtain ⟨h1, h2, h3, h4, _⟩ := write_out_world_spec w w' hwo
  refine ⟨h1, h2, h3, h4, ?_⟩
  intro data2 hlen
  rw [hred data2, hred data, hlen]

/-- Witness for write_backpressure_no_reencrypt: a Streaming stream with a
pending half-sent record retries; the encrypt script is untouched and only
the pending record bytes reach the transport. -/
theorem write_backpressure_no_reencrypt_witness :
    (⟨⟨.streaming ⟨1, 1, 4⟩, false, emptyCursor, emptyCursor, ⟨[1, 2, 3], 3⟩⟩,
      { emptyTransport with writes := [], sink := [2, 3] },
      { emptyProvider with encrypts := [.fatal 1] }⟩ : World).pr =
      (⟨⟨.streaming ⟨1, 1, 4⟩, false, emptyCursor, emptyCursor, ⟨[1, 2, 3], 1⟩⟩,
        { emptyTransport with writes := [.ok 5] },
        { emptyProvider with encrypts := [.fatal 1] }⟩ : World).pr ∧
    (⟨⟨.streaming ⟨1, 1, 4⟩, false, emptyCursor, emptyCursor, ⟨[1, 2, 3], 3⟩⟩,
      { emptyTransport with writes := [], sink := [2, 3] },
      { emptyProvider with encrypts := [.fatal 1] }⟩ : World).tls.out_buf.buf =
      (⟨⟨.streaming ⟨1, 1, 4⟩, false, emptyCursor, emptyCursor, ⟨[1, 2, 3], 1⟩⟩,
        { emptyTransport with writes := [.ok 5] },
        { emptyProvider with encrypts := [.fatal 1] }⟩ : World).tls.out_buf.buf ∧
    (⟨⟨.streaming ⟨1, 1, 4⟩, false, emptyCursor, emptyCursor, ⟨[1, 2, 3], 1⟩⟩,
      { emptyTransport with writes := [.ok 5] },
      { emptyProvider with encrypts := [.fatal 1] }⟩ : World).tls.out_buf.pos ≤
      (⟨⟨.streaming ⟨1, 1, 4⟩, false, emptyCursor, emptyCursor, ⟨[1, 2, 3], 3⟩⟩,
        { emptyTransport with writes := [], sink := [2, 3] },
        { emptyProvider with encrypts := [.fatal 1] }⟩ : World).tls.out_buf.pos ∧
    (⟨⟨.streaming ⟨1, 1, 4⟩, false, emptyCursor, emptyCursor, ⟨[1, 2, 3], 3⟩⟩,
      { emptyTransport with writes := [], sink := [2, 3] },
      { emptyProvider with encrypts := [.fatal 1] }⟩ : World).tr.sink =
      (⟨⟨.streaming ⟨1, 1, 4⟩, false, emptyCursor, emptyCursor, ⟨[1, 2, 3], 1⟩⟩,
        { emptyTransport with writes := [.ok 5] },
        { emptyProvider with encrypts := [.fatal 1] }⟩ : World).tr.sink ++
        (([1, 2, 3].drop 1).take (3 - 1)) ∧
    (∀ data2 : List Nat, data2.length = ([7, 7] : List Nat).length →
       writeTls 1
           ⟨⟨.streaming ⟨1, 1, 4⟩, false, emptyCursor, emptyCursor, ⟨[1, 2, 3], 1⟩⟩,
            { emptyTransport with writes := [.ok 5] },
            { emptyProvider with encrypts := [.fatal 1] }⟩ data2 =
         writeTls 1
           ⟨⟨.streaming ⟨1, 1, 4⟩, false, emptyCursor, emptyCursor, ⟨[1, 2, 3], 1⟩⟩,
            { emptyTransport with writes := [.ok 5] },
            { emptyProvider with encrypts := [.fatal 1] }⟩ [7, 7]) :=
  write_backpressure_no_reencrypt 0
    ⟨⟨.streaming ⟨1, 1, 4⟩, false, emptyCursor, emptyCursor, ⟨[1, 2, 3], 1⟩⟩,
     { emptyTransport with writes := [.ok 5] },
     { emptyProvider with encrypts := [.fatal 1] }⟩
    [7, 7] ⟨1, 1, 4⟩
    ⟨⟨.streaming ⟨1, 1, 4⟩, false, emptyCursor, emptyCursor, ⟨[1, 2, 3], 3⟩⟩,
     { emptyTransport with writes := [], sink := [2, 3] },
     { emptyProvider with encrypts := [.fatal 1] }⟩
    rfl (by decide) (by decide)

theorem flushTransport_pr (w w' : World) (h : (flushTransport w).world = some w') :
    w'.pr = w.pr := by
  unfold flushTransport at h
  rcases hf : w.tr.flushes with _ | ⟨r, rest⟩ <;> rw [hf] at h
  · simp [Res.world] at h
  · cases r <;> simp [Res.world] at h <;> subst h <;> rfl

theorem read_in_pr (w w' : World) (h : (read_in w).world = some w') :
    w'.pr = w.pr := by
  unfold read_in at h
  rcases hr : w.tr.reads with _ | ⟨r, rest⟩ <;> rw [hr] at h
  · simp [Res.world] at h
  · cases r <;> simp [Res.world] at h <;> subst h <;> rfl

theorem queryStreamSizes_encrypts (w w' : World) (h : (queryStreamSizes w).world = some w') :
    w'.pr.encrypts = w.pr.encrypts := by
  unfold queryStreamSizes at h
  rcases hq : w.pr.sizesQ with _ | ⟨r, rest⟩ <;> rw [hq] at h
  · simp [Res.world] at h
  · cases r <;> simp [Res.world] at h <;> subst h <;> rfl

theorem decryptReneg_encrypts (w w' : World) (sd : Bool) (extra : Option Nat)
    (h : (decryptReneg w sd extra).world = some w') :
    w'.pr.encrypts = w.pr.encrypts := by
  unfold decryptReneg at h
  split at h
  · simp [Res.world] at h
  · split at h
    · simp [Res.world] at h
    · simp only [Res.world, Option.some.injEq] at h
      subst h
      rfl

theorem decrypt_encrypts (w w' : World) (h : (decrypt w).world = some w') :
    w'.pr.encrypts = w.pr.encrypts := by
  unfold decrypt at h
  split at h
  · simp [Res.world] at h
  · split at h
    · simp only [Res.world, Option.some.injEq] at h
      subst h
      rfl
    · simp only [Res.world, Option.some.injEq] at h
      subst h
      rfl
    · simp only [] at h
      have hx := decryptReneg_encrypts _ w' true _ h
      exact hx
    · simp only [] at h
      have hx := decryptReneg_encrypts _ w' false _ h
      exact hx
    · simp only [] at h
      split at h
      · split at h
        · simp [Res.world] at h
        · split at h
          · simp [Res.world] at h
          · simp only [Res.world, Option.some.injEq] at h
            subst h
            rfl
      · simp [Res.world] at h

theorem stepInitOkFinish_encrypts (w2 w' : World) (p : Nat)
    (h : (stepInitOkFinish w2 p).world = some w') :
    w'.pr.encrypts = w2.pr.encrypts := by
  unfold stepInitOkFinish at h
  split at h
  all_goals rename_i heq
  · simp only [Res.world, Option.some.injEq] at h
    subst h
    by_cases hp : p ≠ 0
    · rw [if_pos hp] at heq
      have hx := decrypt_encrypts w2 _ (by rw [heq]; rfl)
      exact hx
    · rw [if_neg hp] at heq
      cases heq
      rfl
  · simp only [Res.world, Option.some.injEq] at h
    subst h
    by_cases hp : p ≠ 0
    · rw [if_pos hp] at heq
      have hx := decrypt_encrypts w2 _ (by rw [heq]; rfl)
      exact hx
    · rw [if_neg hp] at heq
      cases heq
  · simp [Res.world] at h
  · simp [Res.world] at h

theorem stepInit_encrypts (w w' : World) (h : (stepInit w).world = some w') :
    w'.pr.encrypts = w.pr.encrypts := by
  unfold stepInit at h
  split at h
  · simp [Res.world] at h
  · split at h
    · simp only [Res.world, Option.some.injEq] at h
      subst h
      rfl
    · simp only [Res.world, Option.some.injEq] at h
      subst h
      rfl
    · simp only [] at h
      split at h
      · simp [Res.world] at h
      · split at h
        · simp [Res.world] at h
        · simp only [Res.world, Option.some.injEq] at h
          subst h
          rfl
    · simp only [] at h
      split at h
      · simp [Res.world] at h
      · split at h
        · simp [Res.world] at h
        · have hx := stepInitOkFinish_encrypts _ w' _ h
          exact hx

theorem driverFlush_encrypts (nf mc sd : Bool) (w w' : World)
    (h : (driverFlush nf mc sd w).world = some w') :
    w'.pr.encrypts = w.pr.encrypts := by
  unfold driverFlush at h
  split at h
  · simp [Res.world] at h
  · simp [Res.world] at h
  · rename_i e w1 heq
    simp only [Res.world, Option.some.injEq] at h
    subst h
    have hx := (write_out_world_spec w _ (by rw [heq]; rfl)).1
    rw [hx]
  · rename_i n w1 heq
    have h1 : w1.pr = w.pr := (write_out_world_spec w _ (by rw [heq]; rfl)).1
    simp only [] at h
    split at h
    · split at h
      all_goals rename_i heq2
      · simp only [Res.world, Option.some.injEq] at h
        subst h
        have h2 := flushTransport_pr _ _ (by rw [heq2]; rfl)
        rw [h2]
        split
        · rw [h1]
        · rw [h1]
      · simp only [Res.world, Option.some.injEq] at h
        subst h
        have h2 := flushTransport_pr _ _ (by rw [heq2]; rfl)
        rw [h2]
        split
        · rw [h1]
        · rw [h1]
      · simp [Res.world] at h
      · simp [Res.world] at h
    · simp only [Res.world, Option.some.injEq] at h
      subst h
      split
      · rw [h1]
      · rw [h1]

theorem driverRead_encrypts (w w' : World) (h : (driverRead w).world = some w') :
    w'.pr.encrypts = w.pr.encrypts := by
  unfold driverRead at h
  split at h
  · split at h
    · rename_i w5 heq
      simp only [Res.world, Option.some.injEq] at h
      subst h
      have hx := read_in_pr w _ (by rw [heq]; rfl)
      rw [hx]
    · rename_i n w5 heq
      simp only [Res.world, Option.some.injEq] at h
      subst h
      have hx := read_in_pr w _ (by rw [heq]; rfl)
      rw [hx]
    · rename_i e w5 heq
      simp only [Res.world, Option.some.injEq] at h
      subst h
      have hx := read_in_pr w _ (by rw [heq]; rfl)
      rw [hx]
    · simp [Res.world] at h
    · simp [Res.world] at h
  · simp only [Res.world, Option.some.injEq] at h
    subst h
    rfl

theorem initLoop_encrypts (fuel : Nat) : ∀ (w w' : World),
    (initLoop fuel w).world = some w' → w'.pr.encrypts = w.pr.encrypts := by
  induction fuel with
  | zero =>
      intro w w' h
      simp [initLoop, Res.world] at h
  | succ fuel ih =>
      intro w w' h
      rw [initLoop] at h
      split at h
      · simp only [Res.world, Option.some.injEq] at h
        subst h
        rfl
      · simp only [Res.world, Option.some.injEq] at h
        subst h
        rfl
      · rename_i nf mc sd heq0
        split at h
        · simp [Res.world] at h
        · simp [Res.world] at h
        · rename_i e w4 heq
          simp only [Res.world, Option.some.injEq] at h
          subst h
          have hx := driverFlush_encrypts nf mc sd w w4 (by rw [heq]; rfl)
          rw [hx]
        · rename_i u w4 heq
          have h4 : w4.pr.encrypts = w.pr.encrypts :=
            driverFlush_encrypts nf mc sd w w4 (by rw [heq]; rfl)
          split at h
          · split at h
            · exact (ih _ _ h).trans h4
            · split at h
              · rename_i s w5 heq2
                have h5 : w5.pr.encrypts = w4.pr.encrypts :=
                  queryStreamSizes_encrypts w4 w5 (by rw [heq2]; rfl)
                exact (ih _ _ h).trans (h5.trans h4)
              · rename_i e w5 heq2
                simp only [Res.world, Option.some.injEq] at h
                subst h
                have h5 : w5.pr.encrypts = w4.pr.encrypts :=
                  queryStreamSizes_encrypts w4 w5 (by rw [heq2]; rfl)
                exact h5.trans h4
              · simp [Res.world] at h
              · simp [Res.world] at h
          · split at h
            · rename_i u2 w5 heq2
              have h5 : w5.pr.encrypts = w4.pr.encrypts :=
                driverRead_encrypts w4 w5 (by rw [heq2]; rfl)
              split at h
              · rename_i u3 w6 heq3
                have h6 : w6.pr.encrypts = w5.pr.encrypts :=
                  stepInit_encrypts w5 w6 (by rw [heq3]; rfl)
                exact (ih _ _ h).trans (h6.trans (h5.trans h4))
              · rename_i e w6 heq3
                simp only [Res.world, Option.some.injEq] at h
                subst h
                have h6 : w6.pr.encrypts = w5.pr.encrypts :=
                  stepInit_encrypts w5 w6 (by rw [heq3]; rfl)
                exact h6.trans (h5.trans h4)
              · simp [Res.world] at h
              · simp [Res.world] at h
            · rename_i e w5 heq2
              simp only [Res.world, Option.some.injEq] at h
              subst h
              have h5 : w5.pr.encrypts = w4.pr.encrypts :=
                driverRead_encrypts w4 w5 (by rw [heq2]; rfl)
              exact h5.trans h4
            · simp [Res.world] at h
            · simp [Res.world] at h

/-- C3: write runs the handshake driver first; whenever the driver
terminates with the state machine in Shutdown, write returns the error
carrying SEC_E_CONTEXT_EXPIRED with exactly the driver's world (so write
itself encrypts nothing and writes nothing further), and the
EncryptMessage script is untouched end to end; in particular in the
Shutdown state every write fails immediately with that error and the
whole world unchanged. -/
theorem write_shutdown_context_expired (fuel : Nat) (w : World) (data : List Nat) :
    (∀ w', initLoop fuel w = .ok none w' →
       writeTls fuel w data = .err (.schannel SEC_E_CONTEXT_EXPIRED) w' ∧
       w'.pr.encrypts = w.pr.encrypts) ∧
    (w.tls.state = .shutdown →
       writeTls (fuel + 1) w data = .err (.schannel SEC_E_CONTEXT_EXPIRED) w) := by
  constructor
  · intro w' hdrv
    constructor
    · unfold writeTls
      rw [hdrv]
    · exact initLoop_encrypts fuel w w' (by rw [hdrv]; rfl)
  · intro hst
    have hdrv : initLoop (fuel + 1) w = .ok none w := by
      rw [initLoop, hst]
    unfold writeTls
    rw [hdrv]

/-- Witness for write_shutdown_context_expired at a concrete shut-down
stream. -/
theorem write_shutdown_context_expired_witness :
    writeTls 1
        ⟨⟨.shutdown, false, emptyCursor, emptyCursor, emptyCursor⟩,
         emptyTransport, { emptyProvider with encrypts := [.fatal 7] }⟩ [1, 2] =
      .err (.schannel SEC_E_CONTEXT_EXPIRED)
        ⟨⟨.shutdown, false, emptyCursor, emptyCursor, emptyCursor⟩,
         emptyTransport, { emptyProvider with encrypts := [.fatal 7] }⟩ :=
  (write_shutdown_context_expired 0
    ⟨⟨.shutdown, false, emptyCursor, emptyCursor, emptyCursor⟩,
     emptyTransport, { emptyProvider with encrypts := [.fatal 7] }⟩ [1, 2]).2 rfl
